import Mathlib

/-!
# Verification of the pepebot Technical Signal Engine

A shallow embedding, over `ℚ`, of the core of the pepebot repository:

* `src/utils.py` — ATR, ADX, ranging classification, position sizing;
* `src/layers.py` — swing detection, clustering, layer strength,
  layer construction and nearest-layer matching;
* `src/grok.py` — the line-oriented parser of the technical oracle's
  response, including the ATR-based default TP/SL substitution;
* `src/main.py` — the confidence-gated decision logic of
  `PepeScalpingBot.on_candle` and the rate-limit gate `can_call_api`.

Python floats are modelled as exact rationals, Python `str` as `List Char`
where character-level manipulation matters, and a Python statement that can
raise (float division by zero, `float(...)` on a malformed literal) is
modelled with `Option` / an explicit abort flag.
-/

namespace Pepebot

/-! ## utils.py -/

/-- The true range of bar `i`: `max(high-low, |high-prevClose|, |low-prevClose|)`.
Row 0 has no previous close (pandas `shift(1)` yields NaN there and
`max(axis=1)` skips NaN), so row 0's true range is `high - low`. -/
def trueRangeAt (highs lows closes : List ℚ) (i : ℕ) : ℚ :=
  let h := highs.getD i 0
  let l := lows.getD i 0
  if i = 0 then h - l
  else
    let pc := closes.getD (i - 1) 0
    max (h - l) (max |h - pc| |l - pc|)

/-- pandas `Series.ewm(alpha=α, adjust=True).mean()` evaluated at the last
element of the series: the weighted mean `Σ (1-α)^(n-1-j) x_j / Σ (1-α)^(n-1-j)`,
computed by a left fold.  (`min_periods` only controls which of the early
entries are NaN; the guards in the callers guarantee the last entry is valid.) -/
def ewmAdjustedLast (alpha : ℚ) (xs : List ℚ) : ℚ :=
  let p := xs.foldl (fun nd x => ((1 - alpha) * nd.1 + x, (1 - alpha) * nd.2 + 1)) ((0 : ℚ), (0 : ℚ))
  if p.2 = 0 then 0 else p.1 / p.2

/-- `utils.calculate_atr`: returns `0.0` when fewer than `period + 1` bars are
available, otherwise the Wilder-smoothed (pandas `ewm`) mean of the true range,
at the last bar. -/
def calculate_atr (highs lows closes : List ℚ) (period : ℕ) : ℚ :=
  if highs.length < period + 1 then 0
  else
    ewmAdjustedLast (1 / (period : ℚ))
      ((List.range highs.length).map (trueRangeAt highs lows closes))

/-- `+DM` of bar `i` (`np.where((up > down) & (up > 0), up, 0)`); row 0's
`diff()` is NaN and the NaN comparisons are falsy, so row 0 gives 0. -/
def plusDMAt (highs lows : List ℚ) (i : ℕ) : ℚ :=
  if i = 0 then 0
  else
    let up := highs.getD i 0 - highs.getD (i - 1) 0
    let down := lows.getD (i - 1) 0 - lows.getD i 0
    if down < up ∧ 0 < up then up else 0

/-- `-DM` of bar `i`, symmetric to `plusDMAt`. -/
def minusDMAt (highs lows : List ℚ) (i : ℕ) : ℚ :=
  if i = 0 then 0
  else
    let up := highs.getD i 0 - highs.getD (i - 1) 0
    let down := lows.getD (i - 1) 0 - lows.getD i 0
    if up < down ∧ 0 < down then down else 0

/-- `utils.calculate_adx`: returns `0.0` when fewer than `period * 2` bars are
available.  Otherwise: Wilder-smoothed TR and ±DM (per-row prefix `ewm` means,
matching the pandas series), ±DI as `100 * smoothed-DM / smoothed-TR`,
`DX = 100*|+DI - -DI| / ((+DI + -DI).replace(0, 1))`, and ADX as the `ewm`
mean of the DX series.  With `min_periods = period` the first `period - 1`
entries of the DI/DX series are NaN, so the final `ewm` effectively averages
the DX values from row `period - 1` on (pandas skips NaN inputs). -/
def calculate_adx (highs lows closes : List ℚ) (period : ℕ) : ℚ :=
  if highs.length < period * 2 then 0
  else
    let n := highs.length
    let alpha : ℚ := 1 / (period : ℚ)
    let tr := (List.range n).map (trueRangeAt highs lows closes)
    let pdm := (List.range n).map (plusDMAt highs lows)
    let mdm := (List.range n).map (minusDMAt highs lows)
    let atrS := fun i => ewmAdjustedLast alpha (tr.take (i + 1))
    let pdi := fun i => 100 * ewmAdjustedLast alpha (pdm.take (i + 1)) / atrS i
    let mdi := fun i => 100 * ewmAdjustedLast alpha (mdm.take (i + 1)) / atrS i
    let dx := fun i =>
      100 * |pdi i - mdi i| / (if pdi i + mdi i = 0 then 1 else pdi i + mdi i)
    ewmAdjustedLast alpha (((List.range n).drop (period - 1)).map dx)

/-- `utils.is_ranging`: ADX below the threshold. -/
def is_ranging (adx_value threshold : ℚ) : Prop :=
  adx_value < threshold

instance (a t : ℚ) : Decidable (is_ranging a t) := by
  unfold is_ranging; infer_instance

/-- Python 3 `round` on a value that is exactly representable: round half to
even, here to an integer. -/
def pyRoundHalfEven (q : ℚ) : ℤ :=
  let f := ⌊q⌋
  if q - f < 1 / 2 then f
  else if 1 / 2 < q - f then f + 1
  else if f % 2 = 0 then f else f + 1

/-- Python `round(x, 2)`. -/
def pyRound2 (q : ℚ) : ℚ :=
  (pyRoundHalfEven (q * 100) : ℚ) / 100

/-- `utils.calculate_position_size`.  The computation of
`price_diff_percent = abs(entry - stop_loss) / entry * 100` divides by `entry`
with no guard: in Python a zero `entry` raises `ZeroDivisionError`, modelled
here as `none`.  The `leverage` argument is accepted but never used. -/
def calculate_position_size (account_balance risk_percent entry stop_loss : ℚ)
    (leverage : ℤ) : Option ℚ :=
  let risk_amount := account_balance * (risk_percent / 100)
  if entry = 0 then none
  else
    let price_diff_percent := |entry - stop_loss| / entry * 100
    if price_diff_percent = 0 then some 0
    else some (pyRound2 (risk_amount / (price_diff_percent / 100)))

/-! ## Rate-limit state (`main.PepeScalpingBot.can_call_api`) -/

def MAX_CALLS_PER_DAY : ℕ := 500

def MAX_X_SEARCHES_PER_DAY : ℕ := 100

def COOLDOWN_SECONDS : ℚ := 60

def MIN_CONFIDENCE : ℤ := 60

def HIGH_CONFIDENCE : ℤ := 80

/-- The bot's rate-limit counters (`last_api_call`, `daily_calls`,
`daily_x_searches`, `last_reset_day`).  `last_reset_day` holds the value of
`datetime.utcnow().day`. -/
structure RateLimitState where
  last_api_call : ℚ
  daily_calls : ℕ
  daily_x_searches : ℕ
  last_reset_day : ℕ
deriving Repr, DecidableEq

/-- `main.PepeScalpingBot.can_call_api`, as a pure state transition: the
current UTC day (`datetime.utcnow().day`) and the current time are passed in
explicitly.  Returns the updated state and whether an API call is allowed. -/
def can_call_api (s : RateLimitState) (current_day : ℕ) (now : ℚ) :
    RateLimitState × Bool :=
  let s1 :=
    if current_day ≠ s.last_reset_day then
      { s with daily_calls := 0, daily_x_searches := 0, last_reset_day := current_day }
    else s
  if MAX_CALLS_PER_DAY ≤ s1.daily_calls then (s1, false)
  else (s1, decide (COOLDOWN_SECONDS ≤ now - s1.last_api_call))

/-! ## Theorems: indicators, position sizing, rate limits -/

/-- Claim C3: for every window shorter than the required minimum — fewer than
`period + 1` bars for ATR, fewer than `2 * period` bars for ADX — the
indicator returns exactly `0.0` as an insufficient-data sentinel. -/
theorem atr_adx_insufficient_data_zero (highs lows closes : List ℚ) (period : ℕ) :
    (highs.length < period + 1 → calculate_atr highs lows closes period = 0)
    ∧ (highs.length < period * 2 → calculate_adx highs lows closes period = 0) := by
  constructor
  · intro h
    unfold calculate_atr
    rw [if_pos h]
  · intro h
    unfold calculate_adx
    rw [if_pos h]

/-- Witness for C3: a 1-bar window is shorter than both minimum lengths
(period 14), and both indicators return `0.0` on it. -/
theorem atr_adx_insufficient_data_zero_witness :
    calculate_atr [1] [1] [1] 14 = 0 ∧ calculate_adx [1] [1] [1] 14 = 0 :=
  ⟨(atr_adx_insufficient_data_zero [1] [1] [1] 14).1 (by norm_num),
   (atr_adx_insufficient_data_zero [1] [1] [1] 14).2 (by norm_num)⟩

/-- Claim C5: for entry ≠ stop-loss the position size is
`round((balance*risk/100) / ((|entry-sl|/entry*100)/100), 2)`, for
entry = stop-loss it is `0.0`; in particular
`size(1000, 0.2, 1.0, 0.99, 10) = 200.00`; and the `leverage` argument never
changes the result.  (The claim's formula divides by `entry`, so it
presupposes `entry ≠ 0`; the hypothesis records that.) -/
theorem calculate_position_size_formula (balance risk entry stop_loss : ℚ)
    (lev lev' : ℤ) (he : entry ≠ 0) :
    (entry ≠ stop_loss →
      calculate_position_size balance risk entry stop_loss lev =
        some (pyRound2 ((balance * (risk / 100)) /
          ((|entry - stop_loss| / entry * 100) / 100))))
    ∧ (entry = stop_loss →
      calculate_position_size balance risk entry stop_loss lev = some 0)
    ∧ calculate_position_size 1000 (2/10) 1 (99/100) 10 = some 200
    ∧ calculate_position_size balance risk entry stop_loss lev =
        calculate_position_size balance risk entry stop_loss lev' := by
  refine ⟨?_, ?_, ?_, rfl⟩
  · intro hne
    unfold calculate_position_size
    rw [if_neg he, if_neg]
    intro h0
    have h1 : |entry - stop_loss| / entry = 0 := by
      rcases mul_eq_zero.mp h0 with h | h
      · exact h
      · norm_num at h
    rcases div_eq_zero_iff.mp h1 with h | h
    · exact hne (sub_eq_zero.mp (abs_eq_zero.mp h))
    · exact he h
  · intro hesl
    unfold calculate_position_size
    rw [if_neg he, if_pos]
    rw [hesl, sub_self, abs_zero, zero_div, zero_mul]
  · unfold calculate_position_size
    have h1 : (1 : ℚ) ≠ 0 := one_ne_zero
    rw [if_neg h1]
    have hd : |(1 : ℚ) - 99/100| / 1 * 100 = 1 := by
      rw [show (1 : ℚ) - 99/100 = 1/100 by norm_num,
        abs_of_pos (by norm_num : (0 : ℚ) < 1/100)]
      norm_num
    rw [hd, if_neg (by norm_num : (1 : ℚ) ≠ 0)]
    have : (1000 : ℚ) * (2/10/100) / (1/100) = 200 := by norm_num
    rw [this]
    unfold pyRound2 pyRoundHalfEven
    norm_num

/-- Witness for C5: the theorem applied at the spec's concrete inputs
(entry 1.0, stop-loss 0.99, and the degenerate entry = stop-loss case). -/
theorem calculate_position_size_formula_witness :
    calculate_position_size 1000 (2/10) 1 (99/100) 10 =
      some (pyRound2 ((1000 * ((2/10) / 100)) / ((|(1 : ℚ) - 99/100| / 1 * 100) / 100)))
    ∧ calculate_position_size 1000 (2/10) 1 1 10 = some 0 :=
  ⟨(calculate_position_size_formula 1000 (2/10) 1 (99/100) 10 10 one_ne_zero).1
      (by norm_num),
   (calculate_position_size_formula 1000 (2/10) 1 1 10 10 one_ne_zero).2.1 rfl⟩

/-- Counterexample for claim C6: at `entry = 0` (and `stop_loss = 0`, the
degenerate case the claim says returns `0.0`) the sizer does not return a
value at all — the unguarded division `abs(entry - stop_loss) / entry` raises
`ZeroDivisionError` in Python, modelled as `none`. -/
theorem calculate_position_size_entry_zero_raises :
    calculate_position_size 1000 (2/10) 0 0 10 = none := by
  unfold calculate_position_size
  rw [if_pos rfl]

/-- Claim C6 as amended: for every input with `entry ≠ 0` the sizer is total
(returns a value, never raises), and in the degenerate case
`entry = stop_loss` (with `entry ≠ 0`) it returns `0.0` rather than an
unbounded value or an exception. -/
theorem calculate_position_size_total (balance risk entry stop_loss : ℚ)
    (lev : ℤ) (he : entry ≠ 0) :
    (∃ v, calculate_position_size balance risk entry stop_loss lev = some v)
    ∧ (entry = stop_loss →
        calculate_position_size balance risk entry stop_loss lev = some 0) := by
  constructor
  · unfold calculate_position_size
    rw [if_neg he]
    by_cases h : |entry - stop_loss| / entry * 100 = 0
    · exact ⟨0, by rw [if_pos h]⟩
    · exact ⟨_, by rw [if_neg h]⟩
  · intro hesl
    unfold calculate_position_size
    rw [if_neg he, if_pos]
    rw [hesl, sub_self, abs_zero, zero_div, zero_mul]

/-- Witness for the amended C6: concrete nonzero entry, both the total-ness
and the degenerate `entry = stop_loss` output. -/
theorem calculate_position_size_total_witness :
    (∃ v, calculate_position_size 1000 (2/10) 2 2 10 = some v)
    ∧ calculate_position_size 1000 (2/10) 2 2 10 = some 0 :=
  ⟨(calculate_position_size_total 1000 (2/10) 2 2 10 (by norm_num)).1,
   (calculate_position_size_total 1000 (2/10) 2 2 10 (by norm_num)).2 rfl⟩

/-- Claim C10: the returned size is uncapped by the account: there are valid
inputs with `entry ≠ stop_loss` whose size strictly exceeds
`account_balance * leverage` — no notional or balance cap is applied. -/
theorem calculate_position_size_uncapped :
    ∃ (balance risk entry stop_loss : ℚ) (lev : ℤ) (v : ℚ),
      entry ≠ stop_loss
      ∧ calculate_position_size balance risk entry stop_loss lev = some v
      ∧ balance * (lev : ℚ) < v := by
  refine ⟨1000, 2/10, 1, 9999/10000, 10, 20000, by norm_num, ?_, by norm_num⟩
  unfold calculate_position_size
  rw [if_neg (one_ne_zero)]
  have hd : |(1 : ℚ) - 9999/10000| / 1 * 100 = 1/100 := by
    rw [show (1 : ℚ) - 9999/10000 = 1/10000 by norm_num,
      abs_of_pos (by norm_num : (0 : ℚ) < 1/10000)]
    norm_num
  rw [hd, if_neg (by norm_num : (1 : ℚ)/100 ≠ 0)]
  have : (1000 : ℚ) * (2/10/100) / (1/100/100) = 20000 := by norm_num
  rw [this]
  unfold pyRound2 pyRoundHalfEven
  norm_num

/-- Claim C9: the daily counters are reset exactly once per UTC calendar-day
rollover and never mid-day: a gate check on the day already recorded in
`last_reset_day` leaves all counters untouched, while a check on a different
day zeroes both daily counters, records the new day, and any further check on
that same day (at any time) changes nothing. -/
theorem daily_counters_reset_once (s : RateLimitState) (d : ℕ) (t t' : ℚ) :
    ((can_call_api s s.last_reset_day t).1 = s)
    ∧ (d ≠ s.last_reset_day →
        (can_call_api s d t).1.daily_calls = 0
        ∧ (can_call_api s d t).1.daily_x_searches = 0
        ∧ (can_call_api s d t).1.last_reset_day = d
        ∧ (can_call_api (can_call_api s d t).1 d t').1 = (can_call_api s d t).1) := by
  have hfst : ∀ (st : RateLimitState) (day : ℕ) (tm : ℚ),
      (can_call_api st day tm).1 =
        (if day ≠ st.last_reset_day then
          { st with daily_calls := 0, daily_x_searches := 0, last_reset_day := day }
        else st) := by
    intro st day tm
    unfold can_call_api
    by_cases h : MAX_CALLS_PER_DAY ≤ (if day ≠ st.last_reset_day then
        { st with daily_calls := 0, daily_x_searches := 0, last_reset_day := day }
      else st).daily_calls
    · rw [if_pos h]
    · rw [if_neg h]
  constructor
  · rw [hfst]
    simp
  · intro hd
    have h1 : (can_call_api s d t).1 =
        { s with daily_calls := 0, daily_x_searches := 0, last_reset_day := d } := by
      rw [hfst, if_pos hd]
    refine ⟨by rw [h1], by rw [h1], by rw [h1], ?_⟩
    rw [h1, hfst]
    simp

/-- Witness for C9: a concrete state on day 5 with nonzero counters; checking
on day 5 keeps them, checking on day 6 zeroes them once and a repeat check on
day 6 changes nothing. -/
theorem daily_counters_reset_once_witness :
    (can_call_api ⟨0, 3, 2, 5⟩ 5 1000).1 = ⟨0, 3, 2, 5⟩
    ∧ ((can_call_api ⟨0, 3, 2, 5⟩ 6 1000).1.daily_calls = 0
      ∧ (can_call_api ⟨0, 3, 2, 5⟩ 6 1000).1.daily_x_searches = 0
      ∧ (can_call_api ⟨0, 3, 2, 5⟩ 6 1000).1.last_reset_day = 6
      ∧ (can_call_api (can_call_api ⟨0, 3, 2, 5⟩ 6 1000).1 6 2000).1 =
          (can_call_api ⟨0, 3, 2, 5⟩ 6 1000).1) :=
  ⟨(daily_counters_reset_once ⟨0, 3, 2, 5⟩ 6 1000 2000).1,
   (daily_counters_reset_once ⟨0, 3, 2, 5⟩ 6 1000 2000).2 (by norm_num)⟩

/-! ## layers.py -/

/-- `layers.Layer`: a support or resistance layer. -/
structure Layer where
  price : ℚ
  layer_type : String
  touches : ℕ
  strength : ℕ
  distance_pct : ℚ
deriving Repr, DecidableEq

/-- An intermediate cluster dict of `layers.cluster_levels`:
`{'price': ..., 'touches': ..., 'indices': [...]}`. -/
structure Cluster where
  price : ℚ
  touches : ℕ
  indices : List ℕ
deriving Repr, DecidableEq

/-- Bar `i` is a swing high iff its high strictly exceeds the highs of every
bar within `lookback` on both sides (`highs[i] <= highs[i±j]` disqualifies). -/
def is_swing_high (highs : List ℚ) (lookback i : ℕ) : Prop :=
  ∀ j ∈ List.range' 1 lookback,
    highs.getD (i - j) 0 < highs.getD i 0 ∧ highs.getD (i + j) 0 < highs.getD i 0

instance (highs : List ℚ) (lookback i : ℕ) : Decidable (is_swing_high highs lookback i) := by
  unfold is_swing_high; infer_instance

/-- Bar `i` is a swing low iff its low is strictly below the lows of every bar
within `lookback` on both sides. -/
def is_swing_low (lows : List ℚ) (lookback i : ℕ) : Prop :=
  ∀ j ∈ List.range' 1 lookback,
    lows.getD i 0 < lows.getD (i - j) 0 ∧ lows.getD i 0 < lows.getD (i + j) 0

instance (lows : List ℚ) (lookback i : ℕ) : Decidable (is_swing_low lows lookback i) := by
  unfold is_swing_low; infer_instance

/-- `layers.detect_swing_highs`: `(index, price)` pairs for the indices in
`range(lookback, len(highs) - lookback)` that are swing highs. -/
def detect_swing_highs (highs : List ℚ) (lookback : ℕ) : List (ℕ × ℚ) :=
  (List.range highs.length).filterMap fun i =>
    if lookback ≤ i ∧ i + lookback < highs.length ∧ is_swing_high highs lookback i then
      some (i, highs.getD i 0)
    else none

/-- `layers.detect_swing_lows`. -/
def detect_swing_lows (lows : List ℚ) (lookback : ℕ) : List (ℕ × ℚ) :=
  (List.range lows.length).filterMap fun i =>
    if lookback ≤ i ∧ i + lookback < lows.length ∧ is_swing_low lows lookback i then
      some (i, lows.getD i 0)
    else none

/-- The merge test of `layers.cluster_levels`:
`abs(cluster['price'] - price) / price * 100 < threshold_pct`
(note the denominator is the incoming point's price). -/
def cluster_matches (c : Cluster) (price thr : ℚ) : Prop :=
  |c.price - price| / price * 100 < thr

instance (c : Cluster) (price thr : ℚ) : Decidable (cluster_matches c price thr) := by
  unfold cluster_matches; infer_instance

/-- One point of `layers.cluster_levels`'s outer loop: scan the clusters in
creation order, merge into the first match (weighted-average price, touch
count + 1, index appended), else append a fresh cluster at the end. -/
def mergeLevel (idx : ℕ) (price thr : ℚ) : List Cluster → List Cluster
  | [] => [{ price := price, touches := 1, indices := [idx] }]
  | c :: cs =>
    if cluster_matches c price thr then
      { price := (c.price * (c.touches : ℚ) + price) / ((c.touches : ℚ) + 1),
        touches := c.touches + 1,
        indices := c.indices ++ [idx] } :: cs
    else c :: mergeLevel idx price thr cs

/-- `layers.cluster_levels`: fold the swing points in their given (time)
order through `mergeLevel`, starting from no clusters.  (The `if not levels`
early return is subsumed: folding the empty list yields `[]`.) -/
def cluster_levels (levels : List (ℕ × ℚ)) (threshold_pct : ℚ) : List Cluster :=
  levels.foldl (fun cs l => mergeLevel l.1 l.2 threshold_pct cs) []

/-- The volume factor of `layers.calculate_layer_strength`: requires a
nonempty volume list and nonempty touch indices (Python truthiness), takes the
volumes at in-range touch indices, and compares their mean against
`1.2 ×` the window's mean volume. -/
def volume_qualifies (c : Cluster) (volumes : List ℚ) : Prop :=
  ¬volumes.isEmpty = true ∧ ¬c.indices.isEmpty = true ∧
    (let touch_volumes := (c.indices.filter (fun i => i < volumes.length)).map
        (fun i => volumes.getD i 0)
     ¬touch_volumes.isEmpty = true ∧
       volumes.sum / (volumes.length : ℚ) * (12/10) <
         touch_volumes.sum / (touch_volumes.length : ℚ))

instance (c : Cluster) (volumes : List ℚ) : Decidable (volume_qualifies c volumes) := by
  unfold volume_qualifies; infer_instance

/-- The recency factor of `layers.calculate_layer_strength`: some touch index
within the last 20 bars (`idx >= total_bars - 20`, with Python's signed
subtraction). -/
def recent_qualifies (c : Cluster) (total_bars : ℕ) : Prop :=
  ∃ idx ∈ c.indices, (total_bars : ℤ) - 20 ≤ (idx : ℤ)

instance (c : Cluster) (total_bars : ℕ) : Decidable (recent_qualifies c total_bars) := by
  unfold recent_qualifies; infer_instance

/-- `layers.calculate_layer_strength`: +1 for ≥ 2 touches, +1 for a recent
touch, +1 for volume confirmation, then clamped into `[1, 3]` by
`max(1, min(3, strength))`. -/
def calculate_layer_strength (c : Cluster) (total_bars : ℕ) (volumes : List ℚ) : ℕ :=
  max 1 (min 3 ((if 2 ≤ c.touches then 1 else 0)
    + (if recent_qualifies c total_bars then 1 else 0)
    + (if volume_qualifies c volumes then 1 else 0)))

/-- The sort key of `layers.find_layers`: ascending in
`(-touches, distance_pct)`, i.e. descending touches with ascending distance as
tie-break. -/
def layer_key_le (a b : Layer) : Prop :=
  b.touches < a.touches ∨ (a.touches = b.touches ∧ a.distance_pct ≤ b.distance_pct)

instance (a b : Layer) : Decidable (layer_key_le a b) := by
  unfold layer_key_le; infer_instance

/-- Insertion step of the stable sort used to model Python's `list.sort`. -/
def insertLayer (a : Layer) : List Layer → List Layer
  | [] => [a]
  | b :: bs => if layer_key_le a b then a :: b :: bs else b :: insertLayer a bs

/-- Stable insertion sort by `layer_key_le`, modelling
`list.sort(key=lambda x: (-x.touches, x.distance_pct))`.  (The claims proved
below only depend on the sorted list having the same members.) -/
def sortLayers : List Layer → List Layer
  | [] => []
  | a :: rest => insertLayer a (sortLayers rest)

/-- The resistance-side loop of `layers.find_layers`: a cluster becomes a
resistance layer only if its price is strictly above the current price;
`distance_pct = (cluster_price - current) / current * 100`. -/
def resistanceLayersOf (clusters : List Cluster) (current_price : ℚ) (total_bars : ℕ)
    (volumes : List ℚ) : List Layer :=
  clusters.filterMap fun c =>
    if current_price < c.price then
      some { price := c.price, layer_type := "resistance", touches := c.touches,
             strength := calculate_layer_strength c total_bars volumes,
             distance_pct := (c.price - current_price) / current_price * 100 }
    else none

/-- The support-side loop of `layers.find_layers`: a cluster becomes a
support layer only if its price is strictly below the current price;
`distance_pct = (current - cluster_price) / current * 100`. -/
def supportLayersOf (clusters : List Cluster) (current_price : ℚ) (total_bars : ℕ)
    (volumes : List ℚ) : List Layer :=
  clusters.filterMap fun c =>
    if c.price < current_price then
      some { price := c.price, layer_type := "support", touches := c.touches,
             strength := calculate_layer_strength c total_bars volumes,
             distance_pct := (current_price - c.price) / current_price * 100 }
    else none

/-- `layers.find_layers`: swing detection (radius 2), clustering, conversion
of clusters strictly above / below the current price (`closes[-1]`, modelled
as `getLastD 0`) into resistance / support layers, then per-side sorting and
truncation to `max_layers // 2`. -/
def find_layers (highs lows closes volumes : List ℚ) (cluster_threshold : ℚ)
    (max_layers : ℕ) : List Layer × List Layer :=
  if highs.length < 10 then ([], [])
  else
    let current_price := closes.getLastD 0
    let total_bars := closes.length
    let resistance_layers := resistanceLayersOf
      (cluster_levels (detect_swing_highs highs 2) cluster_threshold)
      current_price total_bars volumes
    let support_layers := supportLayersOf
      (cluster_levels (detect_swing_lows lows 2) cluster_threshold)
      current_price total_bars volumes
    let half_max := max_layers / 2
    ((sortLayers resistance_layers).take half_max, (sortLayers support_layers).take half_max)

/-- One iteration of `layers.find_nearest_layer`'s loop: keep the layer iff
its distance is strictly below the running minimum and within the threshold. -/
def nearest_step (threshold_pct : ℚ) (acc : Option Layer × WithTop ℚ) (layer : Layer) :
    Option Layer × WithTop ℚ :=
  if (layer.distance_pct : WithTop ℚ) < acc.2 ∧ layer.distance_pct ≤ threshold_pct then
    (some layer, (layer.distance_pct : WithTop ℚ))
  else acc

/-- `layers.find_nearest_layer`: scan `resistance_layers + support_layers` in
order with `min_distance` starting at `float('inf')` (modelled by
`⊤ : WithTop ℚ`); return the retained layer, if any.  (The `current_price`
argument is accepted but unused, as in the source.) -/
def find_nearest_layer (current_price : ℚ) (resistance_layers support_layers : List Layer)
    (threshold_pct : ℚ) : Option Layer :=
  ((resistance_layers ++ support_layers).foldl (nearest_step threshold_pct)
    (none, (⊤ : WithTop ℚ))).1

/-! ## Theorems: clustering (C7) -/

/-- Claim C7: processing swing points in order (the fold), a point merges into
the first cluster in creation order whose representative price is within the
threshold (relative distance strictly below it); the merge bumps the touch
count by exactly 1 and sets the price to the documented weighted average;
otherwise a fresh cluster with 1 touch is appended. -/
theorem cluster_levels_first_fit (thr price : ℚ) (idx : ℕ) :
    (∀ c : Cluster, cluster_matches c price thr ↔ |c.price - price| / price * 100 < thr)
    ∧ (∀ cs : List Cluster, (∀ c ∈ cs, ¬ cluster_matches c price thr) →
        mergeLevel idx price thr cs =
          cs ++ [{ price := price, touches := 1, indices := [idx] }])
    ∧ (∀ (pre : List Cluster) (c : Cluster) (post : List Cluster),
        (∀ c' ∈ pre, ¬ cluster_matches c' price thr) →
        cluster_matches c price thr →
        mergeLevel idx price thr (pre ++ c :: post) =
          pre ++ { price := (c.price * (c.touches : ℚ) + price) / ((c.touches : ℚ) + 1),
                   touches := c.touches + 1,
                   indices := c.indices ++ [idx] } :: post)
    ∧ (∀ (levels : List (ℕ × ℚ)) (l : ℕ × ℚ) (thr' : ℚ),
        cluster_levels (levels ++ [l]) thr' =
          mergeLevel l.1 l.2 thr' (cluster_levels levels thr')) := by
  refine ⟨fun c => Iff.rfl, ?_, ?_, ?_⟩
  · intro cs h
    induction cs with
    | nil => rfl
    | cons c cs ih =>
      rw [mergeLevel, if_neg (h c (List.mem_cons_self c cs)), List.cons_append,
        ih (fun c' hc' => h c' (List.mem_cons_of_mem c hc'))]
  · intro pre c post hpre hc
    induction pre with
    | nil =>
      rw [List.nil_append, List.nil_append, mergeLevel, if_pos hc]
    | cons p pre ih =>
      rw [List.cons_append, mergeLevel, if_neg (hpre p (List.mem_cons_self p pre)),
        List.cons_append, ih (fun c' hc' => hpre c' (List.mem_cons_of_mem p hc'))]
  · intro levels l thr'
    rw [cluster_levels, cluster_levels, List.foldl_append, List.foldl_cons, List.foldl_nil]

/-- Witness for C7: a point at price 100 does not merge into a cluster at 300
(relative distance 200% ≥ 1%) and is appended fresh; a point at price 100 does
merge into a cluster exactly at 100 (distance 0%), bumping touches 3 → 4. -/
theorem cluster_levels_first_fit_witness :
    mergeLevel 5 100 1 [⟨300, 2, [0, 1]⟩] =
      [⟨300, 2, [0, 1]⟩] ++ [{ price := 100, touches := 1, indices := [5] }]
    ∧ mergeLevel 7 100 1 ([⟨300, 2, [0, 1]⟩] ++ ⟨100, 3, [2]⟩ :: []) =
      [⟨300, 2, [0, 1]⟩] ++
        { price := ((100 : ℚ) * ((3 : ℕ) : ℚ) + 100) / (((3 : ℕ) : ℚ) + 1),
          touches := 3 + 1, indices := [2] ++ [7] } :: [] :=
  ⟨(cluster_levels_first_fit 1 100 5).2.1 [⟨300, 2, [0, 1]⟩] (by
      intro c hc
      rw [List.mem_singleton] at hc
      subst hc
      norm_num [cluster_matches]),
   (cluster_levels_first_fit 1 100 7).2.2.1 [⟨300, 2, [0, 1]⟩] ⟨100, 3, [2]⟩ [] (by
      intro c hc
      rw [List.mem_singleton] at hc
      subst hc
      norm_num [cluster_matches]) (by norm_num [cluster_matches])⟩

/-! ## Theorems: nearest-layer matching (C4) -/

/-- The running minimum distance associated with the retained layer: `⊤`
(`float('inf')`) before anything is retained. -/
def accDist : Option Layer → WithTop ℚ
  | none => ⊤
  | some a => (a.distance_pct : WithTop ℚ)

lemma foldl_nearest_some_of_some (thr : ℚ) :
    ∀ (l : List Layer) (acc : Option Layer × WithTop ℚ) (a : Layer),
      acc.1 = some a → ∃ z, (l.foldl (nearest_step thr) acc).1 = some z := by
  intro l
  induction l with
  | nil => exact fun acc a h => ⟨a, h⟩
  | cons hd tl ih =>
    intro acc a h
    rw [List.foldl_cons]
    unfold nearest_step
    by_cases hc : (hd.distance_pct : WithTop ℚ) < acc.2 ∧ hd.distance_pct ≤ thr
    · rw [if_pos hc]; exact ih _ hd rfl
    · rw [if_neg hc]; exact ih _ a h

lemma foldl_nearest_none (thr : ℚ) :
    ∀ (l : List Layer) (acc : Option Layer × WithTop ℚ),
      (l.foldl (nearest_step thr) acc).1 = none →
      ∀ y ∈ l, ¬((y.distance_pct : WithTop ℚ) < acc.2 ∧ y.distance_pct ≤ thr) := by
  intro l
  induction l with
  | nil => intro acc _ y hy; cases hy
  | cons hd tl ih =>
    intro acc h y hy
    rw [List.foldl_cons] at h
    by_cases hc : (hd.distance_pct : WithTop ℚ) < acc.2 ∧ hd.distance_pct ≤ thr
    · exfalso
      have hstep : (nearest_step thr acc hd).1 = some hd := by
        unfold nearest_step; rw [if_pos hc]
      obtain ⟨z, hz⟩ := foldl_nearest_some_of_some thr tl _ hd hstep
      rw [h] at hz
      cases hz
    · have hstep : nearest_step thr acc hd = acc := by
        unfold nearest_step; rw [if_neg hc]
      rw [hstep] at h
      rcases List.mem_cons.mp hy with rfl | hmem
      · exact hc
      · exact ih acc h y hmem

lemma foldl_nearest_no_qualify (thr : ℚ) :
    ∀ (l : List Layer) (acc : Option Layer × WithTop ℚ),
      (∀ y ∈ l, ¬((y.distance_pct : WithTop ℚ) < acc.2 ∧ y.distance_pct ≤ thr)) →
      l.foldl (nearest_step thr) acc = acc := by
  intro l
  induction l with
  | nil => intro acc _; rfl
  | cons hd tl ih =>
    intro acc h
    rw [List.foldl_cons]
    have hstep : nearest_step thr acc hd = acc := by
      unfold nearest_step; rw [if_neg (h hd (List.mem_cons_self hd tl))]
    rw [hstep]
    exact ih acc (fun y hy => h y (List.mem_cons_of_mem hd hy))

lemma foldl_nearest_spec (thr : ℚ) :
    ∀ (l : List Layer) (o : Option Layer) (x : Layer),
      (l.foldl (nearest_step thr) (o, accDist o)).1 = some x →
      (o = some x ∧ ∀ y ∈ l, y.distance_pct ≤ thr → accDist o ≤ (y.distance_pct : WithTop ℚ))
      ∨ (∃ pre post, l = pre ++ x :: post
          ∧ x.distance_pct ≤ thr
          ∧ (x.distance_pct : WithTop ℚ) < accDist o
          ∧ (∀ y ∈ pre, y.distance_pct ≤ thr → x.distance_pct < y.distance_pct)
          ∧ (∀ y ∈ post, y.distance_pct ≤ thr → x.distance_pct ≤ y.distance_pct)) := by
  intro l
  induction l with
  | nil =>
    intro o x h
    rw [List.foldl_nil] at h
    exact Or.inl ⟨h, by intro y hy; cases hy⟩
  | cons hd tl ih =>
    intro o x h
    rw [List.foldl_cons] at h
    by_cases hc : (hd.distance_pct : WithTop ℚ) < accDist o ∧ hd.distance_pct ≤ thr
    · have hstep : nearest_step thr (o, accDist o) hd =
          (some hd, accDist (some hd)) := by
        unfold nearest_step; rw [if_pos hc]; rfl
      rw [hstep] at h
      rcases ih (some hd) x h with ⟨heq, hall⟩ | ⟨pre, post, hdec, hxthr, hxlt, hpre, hpost⟩
      · rcases Option.some.inj heq with rfl
        refine Or.inr ⟨[], tl, rfl, hc.2, hc.1, ?_, ?_⟩
        · intro y hy; cases hy
        · intro y hy hythr
          exact WithTop.coe_le_coe.mp (hall y hy hythr)
      · have hxhd : x.distance_pct < hd.distance_pct := WithTop.coe_lt_coe.mp hxlt
        refine Or.inr ⟨hd :: pre, post, by rw [hdec, List.cons_append], hxthr,
          lt_trans hxlt hc.1, ?_, hpost⟩
        intro y hy hythr
        rcases List.mem_cons.mp hy with rfl | hymem
        · exact hxhd
        · exact hpre y hymem hythr
    · have hstep : nearest_step thr (o, accDist o) hd = (o, accDist o) := by
        unfold nearest_step; rw [if_neg hc]
      rw [hstep] at h
      rcases ih o x h with ⟨heq, hall⟩ | ⟨pre, post, hdec, hxthr, hxlt, hpre, hpost⟩
      · refine Or.inl ⟨heq, ?_⟩
        intro y hy hythr
        rcases List.mem_cons.mp hy with rfl | hymem
        · exact not_lt.mp (fun hlt => hc ⟨hlt, hythr⟩)
        · exact hall y hymem hythr
      · refine Or.inr ⟨hd :: pre, post, by rw [hdec, List.cons_append], hxthr, hxlt, ?_, hpost⟩
        intro y hy hythr
        rcases List.mem_cons.mp hy with rfl | hymem
        · have hacc : accDist o ≤ (y.distance_pct : WithTop ℚ) :=
            not_lt.mp (fun hlt => hc ⟨hlt, hythr⟩)
          exact WithTop.coe_lt_coe.mp (lt_of_lt_of_le hxlt hacc)
        · exact hpre y hymem hythr

/-- Claim C4: `find_nearest_layer` returns `none` when both lists are empty,
and more generally exactly when no layer's `distance_pct` is within the
threshold; when it returns a layer, that layer is within the threshold, has
minimal distance among all qualifying layers in the resistance-then-support
scan, and every qualifying layer scanned strictly before it has strictly
larger distance (so equal-distance ties resolve to the first-scanned
candidate). -/
theorem find_nearest_layer_spec (current_price threshold_pct : ℚ)
    (resistance_layers support_layers : List Layer) :
    (resistance_layers = [] ∧ support_layers = [] →
      find_nearest_layer current_price resistance_layers support_layers threshold_pct = none)
    ∧ (find_nearest_layer current_price resistance_layers support_layers threshold_pct = none
        ↔ ∀ y ∈ resistance_layers ++ support_layers, ¬ y.distance_pct ≤ threshold_pct)
    ∧ (∀ x, find_nearest_layer current_price resistance_layers support_layers threshold_pct
          = some x →
        ∃ pre post,
          resistance_layers ++ support_layers = pre ++ x :: post
          ∧ x.distance_pct ≤ threshold_pct
          ∧ (∀ y ∈ pre, y.distance_pct ≤ threshold_pct → x.distance_pct < y.distance_pct)
          ∧ (∀ y ∈ resistance_layers ++ support_layers,
              y.distance_pct ≤ threshold_pct → x.distance_pct ≤ y.distance_pct)) := by
  refine ⟨?_, ⟨?_, ?_⟩, ?_⟩
  · rintro ⟨rfl, rfl⟩; rfl
  · intro h y hy hythr
    exact foldl_nearest_none threshold_pct _ _ h y hy ⟨WithTop.coe_lt_top _, hythr⟩
  · intro h
    unfold find_nearest_layer
    rw [foldl_nearest_no_qualify threshold_pct _ _
      (fun y hy hq => h y hy hq.2)]
  · intro x hx
    have hspec := foldl_nearest_spec threshold_pct
      (resistance_layers ++ support_layers) none x hx
    rcases hspec with ⟨heq, _⟩ | ⟨pre, post, hdec, hxthr, _, hpre, hpost⟩
    · cases heq
    · refine ⟨pre, post, hdec, hxthr, hpre, ?_⟩
      intro y hy hythr
      rw [hdec] at hy
      rcases List.mem_append.mp hy with hymem | hymem
      · exact le_of_lt (hpre y hymem hythr)
      · rcases List.mem_cons.mp hymem with rfl | hymem
        · exact le_refl _
        · exact hpost y hymem hythr

/-- Witness for C4: with threshold 10, layers at distances 5, 5, 7 (the two
5s tie): the first-scanned distance-5 resistance layer is returned, it is in
the scan, within threshold, and minimal. -/
theorem find_nearest_layer_spec_witness :
    ∃ pre post,
      [Layer.mk 101 "resistance" 1 1 5, Layer.mk 102 "resistance" 1 1 5]
          ++ [Layer.mk 95 "support" 2 1 7]
        = pre ++ Layer.mk 101 "resistance" 1 1 5 :: post
      ∧ (Layer.mk 101 "resistance" 1 1 5).distance_pct ≤ 10
      ∧ (∀ y ∈ pre, y.distance_pct ≤ 10 →
          (Layer.mk 101 "resistance" 1 1 5).distance_pct < y.distance_pct)
      ∧ (∀ y ∈ [Layer.mk 101 "resistance" 1 1 5, Layer.mk 102 "resistance" 1 1 5]
            ++ [Layer.mk 95 "support" 2 1 7],
          y.distance_pct ≤ 10 →
            (Layer.mk 101 "resistance" 1 1 5).distance_pct ≤ y.distance_pct) :=
  (find_nearest_layer_spec 100 10
      [Layer.mk 101 "resistance" 1 1 5, Layer.mk 102 "resistance" 1 1 5]
      [Layer.mk 95 "support" 2 1 7]).2.2
    (Layer.mk 101 "resistance" 1 1 5) (by decide)

/-! ## Theorems: layer invariants (C8) -/

lemma mem_insertLayer {x a : Layer} :
    ∀ {l : List Layer}, x ∈ insertLayer a l → x = a ∨ x ∈ l := by
  intro l
  induction l with
  | nil =>
    intro h
    rw [insertLayer] at h
    rcases List.mem_singleton.mp h with rfl
    exact Or.inl rfl
  | cons b bs ih =>
    intro h
    rw [insertLayer] at h
    by_cases hc : layer_key_le a b
    · rw [if_pos hc] at h
      rcases List.mem_cons.mp h with rfl | h
      · exact Or.inl rfl
      · exact Or.inr h
    · rw [if_neg hc] at h
      rcases List.mem_cons.mp h with rfl | h
      · exact Or.inr (List.mem_cons_self _ _)
      · rcases ih h with rfl | h
        · exact Or.inl rfl
        · exact Or.inr (List.mem_cons_of_mem _ h)

lemma mem_sortLayers {x : Layer} :
    ∀ {l : List Layer}, x ∈ sortLayers l → x ∈ l := by
  intro l
  induction l with
  | nil => intro h; cases h
  | cons a rest ih =>
    intro h
    rw [sortLayers] at h
    rcases mem_insertLayer h with rfl | h
    · exact List.mem_cons_self _ _
    · exact List.mem_cons_of_mem _ (ih h)

lemma calculate_layer_strength_bounds (c : Cluster) (total_bars : ℕ) (volumes : List ℚ) :
    1 ≤ calculate_layer_strength c total_bars volumes
    ∧ calculate_layer_strength c total_bars volumes ≤ 3 := by
  unfold calculate_layer_strength
  exact ⟨le_max_left 1 _, max_le (by norm_num) (min_le_left 3 _)⟩

lemma mem_resistanceLayersOf {L : Layer} {clusters : List Cluster} {cur : ℚ}
    {total_bars : ℕ} {volumes : List ℚ}
    (h : L ∈ resistanceLayersOf clusters cur total_bars volumes) :
    ∃ c ∈ clusters, cur < c.price ∧
      L = { price := c.price, layer_type := "resistance", touches := c.touches,
            strength := calculate_layer_strength c total_bars volumes,
            distance_pct := (c.price - cur) / cur * 100 } := by
  unfold resistanceLayersOf at h
  obtain ⟨c, hc, heq⟩ := List.mem_filterMap.mp h
  by_cases hlt : cur < c.price
  · rw [if_pos hlt] at heq
    exact ⟨c, hc, hlt, (Option.some.inj heq).symm⟩
  · rw [if_neg hlt] at heq
    cases heq

lemma mem_supportLayersOf {L : Layer} {clusters : List Cluster} {cur : ℚ}
    {total_bars : ℕ} {volumes : List ℚ}
    (h : L ∈ supportLayersOf clusters cur total_bars volumes) :
    ∃ c ∈ clusters, c.price < cur ∧
      L = { price := c.price, layer_type := "support", touches := c.touches,
            strength := calculate_layer_strength c total_bars volumes,
            distance_pct := (cur - c.price) / cur * 100 } := by
  unfold supportLayersOf at h
  obtain ⟨c, hc, heq⟩ := List.mem_filterMap.mp h
  by_cases hlt : c.price < cur
  · rw [if_pos hlt] at heq
    exact ⟨c, hc, hlt, (Option.some.inj heq).symm⟩
  · rw [if_neg hlt] at heq
    cases heq

/-- Claim C8: every layer constructed by `find_layers` has strength in
`[1, 3]` and non-negative `distance_pct`; resistance layers sit strictly
above, support layers strictly below, the current price (the last close) at
construction; and a cluster with one touch, no recency-qualifying index and
no volume confirmation scores exactly 1. -/
theorem find_layers_invariants (highs lows closes volumes : List ℚ) (thr : ℚ)
    (max_layers : ℕ) (L : Layer)
    (hpos : 0 < closes.getLastD 0)
    (hL : L ∈ (find_layers highs lows closes volumes thr max_layers).1 ++
            (find_layers highs lows closes volumes thr max_layers).2)
    (c : Cluster) (total_bars : ℕ) (vols : List ℚ)
    (hc1 : c.touches = 1) (hc2 : ¬ recent_qualifies c total_bars)
    (hc3 : ¬ volume_qualifies c vols) :
    (1 ≤ L.strength ∧ L.strength ≤ 3)
    ∧ 0 ≤ L.distance_pct
    ∧ (L ∈ (find_layers highs lows closes volumes thr max_layers).1 →
        L.layer_type = "resistance" ∧ closes.getLastD 0 < L.price)
    ∧ (L ∈ (find_layers highs lows closes volumes thr max_layers).2 →
        L.layer_type = "support" ∧ L.price < closes.getLastD 0)
    ∧ calculate_layer_strength c total_bars vols = 1 := by
  have hscore : calculate_layer_strength c total_bars vols = 1 := by
    unfold calculate_layer_strength
    rw [if_neg (by omega : ¬ 2 ≤ c.touches), if_neg hc2, if_neg hc3]
    decide
  by_cases hlen : highs.length < 10
  · exfalso
    have h0 : find_layers highs lows closes volumes thr max_layers = ([], []) := by
      unfold find_layers
      rw [if_pos hlen]
    rw [h0] at hL
    cases hL
  · have h1 : find_layers highs lows closes volumes thr max_layers =
        ((sortLayers (resistanceLayersOf
            (cluster_levels (detect_swing_highs highs 2) thr)
            (closes.getLastD 0) closes.length volumes)).take (max_layers / 2),
         (sortLayers (supportLayersOf
            (cluster_levels (detect_swing_lows lows 2) thr)
            (closes.getLastD 0) closes.length volumes)).take (max_layers / 2)) := by
      unfold find_layers
      rw [if_neg hlen]
    have hres : L ∈ (find_layers highs lows closes volumes thr max_layers).1 →
        (1 ≤ L.strength ∧ L.strength ≤ 3) ∧ 0 ≤ L.distance_pct
        ∧ L.layer_type = "resistance" ∧ closes.getLastD 0 < L.price := by
      intro hmem
      rw [h1] at hmem
      obtain ⟨cl, _, hlt, hLeq⟩ :=
        mem_resistanceLayersOf (mem_sortLayers (List.take_subset _ _ hmem))
      subst hLeq
      refine ⟨calculate_layer_strength_bounds _ _ _, ?_, rfl, hlt⟩
      exact le_of_lt (mul_pos (div_pos (sub_pos.mpr hlt) hpos) (by norm_num))
    have hsup : L ∈ (find_layers highs lows closes volumes thr max_layers).2 →
        (1 ≤ L.strength ∧ L.strength ≤ 3) ∧ 0 ≤ L.distance_pct
        ∧ L.layer_type = "support" ∧ L.price < closes.getLastD 0 := by
      intro hmem
      rw [h1] at hmem
      obtain ⟨cl, _, hlt, hLeq⟩ :=
        mem_supportLayersOf (mem_sortLayers (List.take_subset _ _ hmem))
      subst hLeq
      refine ⟨calculate_layer_strength_bounds _ _ _, ?_, rfl, hlt⟩
      exact le_of_lt (mul_pos (div_pos (sub_pos.mpr hlt) hpos) (by norm_num))
    rcases List.mem_append.mp hL with hmem | hmem
    · obtain ⟨hb, hd, ht, hp⟩ := hres hmem
      exact ⟨hb, hd, fun _ => ⟨ht, hp⟩, fun h2 => ⟨(hsup h2).2.2.1, (hsup h2).2.2.2⟩, hscore⟩
    · obtain ⟨hb, hd, ht, hp⟩ := hsup hmem
      exact ⟨hb, hd, fun h2 => ⟨(hres h2).2.2.1, (hres h2).2.2.2⟩, fun _ => ⟨ht, hp⟩, hscore⟩

/-- Evaluation of `find_layers` on a concrete 10-bar window: one swing high
at price 3 (index 2), all closes at 1, so a single resistance layer with
1 touch, strength 1 (recency factor only would give 1 after clamping — here
touches = 1 and index 2 is within the last 20 bars, giving raw score 1). -/
lemma find_layers_demo :
    find_layers [1, 1, 3, 1, 1, 1, 1, 1, 1, 1] [1, 1, 1, 1, 1, 1, 1, 1, 1, 1]
        [1, 1, 1, 1, 1, 1, 1, 1, 1, 1] [] 1 4 =
      ([{ price := 3, layer_type := "resistance", touches := 1, strength := 1,
          distance_pct := ((3 : ℚ) - 1) / 1 * 100 }], []) := by
  rfl

/-- Witness for C8: the theorem applied to the concrete window of
`find_layers_demo` and to a concrete singleton cluster with no qualifying
factors. -/
theorem find_layers_invariants_witness :
    (1 ≤ (Layer.mk 3 "resistance" 1 1 (((3 : ℚ) - 1) / 1 * 100)).strength
      ∧ (Layer.mk 3 "resistance" 1 1 (((3 : ℚ) - 1) / 1 * 100)).strength ≤ 3)
    ∧ 0 ≤ (Layer.mk 3 "resistance" 1 1 (((3 : ℚ) - 1) / 1 * 100)).distance_pct
    ∧ ((Layer.mk 3 "resistance" 1 1 (((3 : ℚ) - 1) / 1 * 100)) ∈
        (find_layers [1, 1, 3, 1, 1, 1, 1, 1, 1, 1] [1, 1, 1, 1, 1, 1, 1, 1, 1, 1]
          [1, 1, 1, 1, 1, 1, 1, 1, 1, 1] [] 1 4).1 →
        (Layer.mk 3 "resistance" 1 1 (((3 : ℚ) - 1) / 1 * 100)).layer_type = "resistance"
        ∧ ([1, 1, 1, 1, 1, 1, 1, 1, 1, 1] : List ℚ).getLastD 0 <
            (Layer.mk 3 "resistance" 1 1 (((3 : ℚ) - 1) / 1 * 100)).price)
    ∧ ((Layer.mk 3 "resistance" 1 1 (((3 : ℚ) - 1) / 1 * 100)) ∈
        (find_layers [1, 1, 3, 1, 1, 1, 1, 1, 1, 1] [1, 1, 1, 1, 1, 1, 1, 1, 1, 1]
          [1, 1, 1, 1, 1, 1, 1, 1, 1, 1] [] 1 4).2 →
        (Layer.mk 3 "resistance" 1 1 (((3 : ℚ) - 1) / 1 * 100)).layer_type = "support"
        ∧ (Layer.mk 3 "resistance" 1 1 (((3 : ℚ) - 1) / 1 * 100)).price <
            ([1, 1, 1, 1, 1, 1, 1, 1, 1, 1] : List ℚ).getLastD 0)
    ∧ calculate_layer_strength ⟨5, 1, [0]⟩ 30 [] = 1 := by
  have hL : (Layer.mk 3 "resistance" 1 1 (((3 : ℚ) - 1) / 1 * 100)) ∈
      (find_layers [1, 1, 3, 1, 1, 1, 1, 1, 1, 1] [1, 1, 1, 1, 1, 1, 1, 1, 1, 1]
        [1, 1, 1, 1, 1, 1, 1, 1, 1, 1] [] 1 4).1 ++
      (find_layers [1, 1, 3, 1, 1, 1, 1, 1, 1, 1] [1, 1, 1, 1, 1, 1, 1, 1, 1, 1]
        [1, 1, 1, 1, 1, 1, 1, 1, 1, 1] [] 1 4).2 := by
    rw [find_layers_demo]
    exact List.mem_append.mpr (Or.inl (List.mem_singleton.mpr rfl))
  exact find_layers_invariants [1, 1, 3, 1, 1, 1, 1, 1, 1, 1] [1, 1, 1, 1, 1, 1, 1, 1, 1, 1]
    [1, 1, 1, 1, 1, 1, 1, 1, 1, 1] [] 1 4
    (Layer.mk 3 "resistance" 1 1 (((3 : ℚ) - 1) / 1 * 100))
    (by norm_num) hL ⟨5, 1, [0]⟩ 30 [] rfl (by decide) (by decide)

/-! ## grok.py: parsing the technical oracle's response

Python `str` is modelled as `List Char`.  `str.strip`, `str.split`,
`str.startswith`, `str.upper`, the regex searches `\d+` / `[\d.]+` and
`int()` / `float()` conversion are modelled character-by-character;
`float()` on a `[\d.]+` match with no digit or more than one dot raises
`ValueError`, which the source catches around the whole parse loop —
modelled by an abort flag that skips the rest of the loop *and* the
default-TP/SL substitution block (both live inside the same `try`). -/

/-- Python whitespace for `str.strip`. -/
def isPySpace (c : Char) : Bool :=
  c == ' ' || c == '\t' || c == '\n' || c == '\r' || c == '\x0b' || c == '\x0c'

/-- Python `str.strip()`. -/
def pyStrip (cs : List Char) : List Char :=
  ((cs.dropWhile isPySpace).reverse.dropWhile isPySpace).reverse

def pySplitAux (sep : Char) : List Char → List Char → List (List Char)
  | [], acc => [acc.reverse]
  | c :: cs, acc =>
    if c == sep then acc.reverse :: pySplitAux sep cs []
    else pySplitAux sep cs (c :: acc)

/-- Python `str.split(sep)` for a single-character separator. -/
def pySplit (sep : Char) (cs : List Char) : List (List Char) :=
  pySplitAux sep cs []

/-- Python `str.startswith(prefix)`. -/
def pyStartsWith : List Char → List Char → Bool
  | [], _ => true
  | _ :: _, [] => false
  | p :: ps, c :: cs => p == c && pyStartsWith ps cs

/-- Python `str.upper()` (the labels involved are ASCII). -/
def pyUpper (cs : List Char) : List Char :=
  cs.map Char.toUpper

/-- Python `line.split(':')[1]` (the callers guarantee a colon is present,
since the line starts with a `LABEL:` prefix). -/
def afterColon (line : List Char) : List Char :=
  (pySplit ':' line).getD 1 []

/-- Python `line.split(':', 1)[1]`: everything after the first colon. -/
def afterFirstColon (line : List Char) : List Char :=
  (line.dropWhile (fun c => !(c == ':'))).drop 1

/-- Decimal value of a digit run (`int()` on a `\d+` match). -/
def natOfDigits (cs : List Char) : ℕ :=
  cs.foldl (fun n c => n * 10 + (c.toNat - 48)) 0

/-- `re.search` for a character-class-plus pattern: the leftmost maximal run
of characters satisfying `p`, or `none`. -/
def firstRunOf (p : Char → Bool) (cs : List Char) : Option (List Char) :=
  let rest := cs.dropWhile (fun c => !(p c))
  if rest.isEmpty then none else some (rest.takeWhile p)

/-- The character class of the `[\d.]+` regex. -/
def isDigitDot (c : Char) : Bool :=
  c.isDigit || c == '.'

/-- The rational `ip + fp / 10^k` assembled from the integer part, the
fractional digits and their count. -/
def ratOfParts (ip fp k : ℕ) : ℚ :=
  (ip : ℚ) + (fp : ℚ) / 10 ^ k

/-- Python `float()` applied to a `[\d.]+` match: fails (raises `ValueError`)
when the run has more than one dot or no digit at all; otherwise the value is
`integer part + fractional part / 10^digits`. -/
def pyFloatOfRun (cs : List Char) : Option ℚ :=
  if 2 ≤ cs.count '.' then none
  else if !(cs.any Char.isDigit) then none
  else
    some (ratOfParts
      (natOfDigits (cs.takeWhile (fun c => !(c == '.'))))
      (natOfDigits ((cs.dropWhile (fun c => !(c == '.'))).drop 1))
      ((cs.dropWhile (fun c => !(c == '.'))).drop 1).length)

/-- The result dict of `GrokClient._parse_technical_response`. -/
structure TechResult where
  direction : List Char
  confidence : ℤ
  tp : ℚ
  sl : ℚ
  reason : List Char
deriving Repr, DecidableEq

/-- The defaults the parser starts from. -/
def initTechResult : TechResult :=
  { direction := "SKIP".data, confidence := 0, tp := 0, sl := 0,
    reason := "Failed to parse response".data }

/-- One line of the parse loop: strip, then dispatch on the line prefix.
The second component signals a `float()` `ValueError` (which Python's `try`
turns into an abort of the whole loop). -/
def techLineStep (r : TechResult) (rawLine : List Char) : TechResult × Bool :=
  let line := pyStrip rawLine
  if pyStartsWith "DIRECTION:".data line then
    let d := pyUpper (pyStrip (afterColon line))
    (if d = "LONG".data ∨ d = "SHORT".data ∨ d = "SKIP".data then
      { r with direction := d } else r, false)
  else if pyStartsWith "CONFIDENCE:".data line then
    match firstRunOf Char.isDigit (pyStrip (afterColon line)) with
    | some run => ({ r with confidence := (natOfDigits run : ℤ) }, false)
    | none => (r, false)
  else if pyStartsWith "TP:".data line then
    match firstRunOf isDigitDot (pyStrip (afterColon line)) with
    | some run =>
      match pyFloatOfRun run with
      | some v => ({ r with tp := v }, false)
      | none => (r, true)
    | none => (r, false)
  else if pyStartsWith "SL:".data line then
    match firstRunOf isDigitDot (pyStrip (afterColon line)) with
    | some run =>
      match pyFloatOfRun run with
      | some v => ({ r with sl := v }, false)
      | none => (r, true)
    | none => (r, false)
  else if pyStartsWith "REASON:".data line then
    ({ r with reason := pyStrip (afterFirstColon line) }, false)
  else (r, false)

/-- The parse loop over the lines; an abort stops it early. -/
def techLinesLoop : TechResult → List (List Char) → TechResult × Bool
  | r, [] => (r, false)
  | r, l :: ls =>
    let p := techLineStep r l
    if p.2 then (p.1, true) else techLinesLoop p.1 ls

/-- The loop stage of `GrokClient._parse_technical_response`, applied to
`response.strip().split('\n')`. -/
def parsedTech (response : List Char) : TechResult × Bool :=
  techLinesLoop initTechResult (pySplit '\n' (pyStrip response))

/-- `GrokClient._parse_technical_response`: run the line loop, then — only
when no exception was raised — apply the default-TP/SL substitution, which
triggers exactly when the parsed `tp` is `0` and the direction is not SKIP,
and then overwrites *both* `tp` and `sl` with `price ± atr`. -/
def parse_technical_response (response : List Char) (price atr : ℚ) : TechResult :=
  if (parsedTech response).2 then (parsedTech response).1
  else if (parsedTech response).1.tp = 0 ∧ ¬ (parsedTech response).1.direction = "SKIP".data then
    if (parsedTech response).1.direction = "LONG".data then
      { (parsedTech response).1 with tp := price + atr, sl := price - atr }
    else
      { (parsedTech response).1 with tp := price - atr, sl := price + atr }
  else (parsedTech response).1

/-! ## Theorems: default TP/SL substitution (C1) -/

/-- Counterexample for claim C1: the response
`"DIRECTION: LONG\nTP: 1.5\nSL: 0"` parses to direction LONG with `tp = 1.5`
and `sl = 0`; since the substitution only checks `tp == 0`, the returned
intent keeps `sl = 0` — an actionable direction is returned with a zero SL,
not `entry - ATR` (here `1 - 0.0002 = 0.9998`). -/
theorem parse_technical_zero_sl_returned :
    (parse_technical_response "DIRECTION: LONG\nTP: 1.5\nSL: 0".data 1 (2/10000)).direction
        = "LONG".data
    ∧ (parse_technical_response "DIRECTION: LONG\nTP: 1.5\nSL: 0".data 1 (2/10000)).sl = 0
    ∧ ¬ (parse_technical_response "DIRECTION: LONG\nTP: 1.5\nSL: 0".data 1 (2/10000)).sl
        = 1 - 2/10000 := by
  have hb : (parsedTech "DIRECTION: LONG\nTP: 1.5\nSL: 0".data).2 = false := by decide
  have htp : (parsedTech "DIRECTION: LONG\nTP: 1.5\nSL: 0".data).1.tp = ratOfParts 1 5 1 :=
    rfl
  have hsl : (parsedTech "DIRECTION: LONG\nTP: 1.5\nSL: 0".data).1.sl = ratOfParts 0 0 0 :=
    rfl
  have hdir : (parsedTech "DIRECTION: LONG\nTP: 1.5\nSL: 0".data).1.direction = "LONG".data :=
    by decide
  have hres : parse_technical_response "DIRECTION: LONG\nTP: 1.5\nSL: 0".data 1 (2/10000)
      = (parsedTech "DIRECTION: LONG\nTP: 1.5\nSL: 0".data).1 := by
    unfold parse_technical_response
    rw [hb]
    simp only [Bool.false_eq_true, if_false]
    rw [if_neg]
    intro hcontra
    rw [htp] at hcontra
    have := hcontra.1
    norm_num [ratOfParts] at this
  refine ⟨?_, ?_, ?_⟩ <;> rw [hres]
  · exact hdir
  · rw [hsl]; norm_num [ratOfParts]
  · rw [hsl]; norm_num [ratOfParts]

/-- Claim C1 as amended: when the parse loop finishes without an exception,
the ATR default bracket is substituted exactly when the *parsed TP* is zero
(and direction ≠ SKIP), in which case both TP and SL become
`entry ± ATR` with signs per direction; when the parsed TP is nonzero the
result is returned as parsed — even if its SL is zero. -/
theorem parse_technical_substitution (response : List Char) (price atr : ℚ) :
    ((parsedTech response).2 = false → (parsedTech response).1.tp = 0 →
      ¬ (parsedTech response).1.direction = "SKIP".data →
      parse_technical_response response price atr =
        (if (parsedTech response).1.direction = "LONG".data then
          { (parsedTech response).1 with tp := price + atr, sl := price - atr }
        else
          { (parsedTech response).1 with tp := price - atr, sl := price + atr }))
    ∧ ((parsedTech response).2 = false → ¬ (parsedTech response).1.tp = 0 →
      parse_technical_response response price atr = (parsedTech response).1) := by
  constructor
  · intro hb htp hdir
    unfold parse_technical_response
    rw [hb]
    simp only [Bool.false_eq_true, if_false]
    rw [if_pos ⟨htp, hdir⟩]
  · intro hb htp
    unfold parse_technical_response
    rw [hb]
    simp only [Bool.false_eq_true, if_false]
    rw [if_neg (fun h => htp h.1)]

/-- Witness for the amended C1: the spec's own scenario — direction LONG with
`tp = 0`, entry 1.0, ATR 0.0002 — receives the default bracket
`tp = 1.0002`, `sl = 0.9998`. -/
theorem parse_technical_substitution_witness :
    parse_technical_response "DIRECTION: LONG\nTP: 0\nSL: 0".data 1 (2/10000) =
      (if (parsedTech "DIRECTION: LONG\nTP: 0\nSL: 0".data).1.direction = "LONG".data then
        { (parsedTech "DIRECTION: LONG\nTP: 0\nSL: 0".data).1 with
          tp := 1 + 2/10000, sl := 1 - 2/10000 }
      else
        { (parsedTech "DIRECTION: LONG\nTP: 0\nSL: 0".data).1 with
          tp := 1 - 2/10000, sl := 1 + 2/10000 }) :=
  (parse_technical_substitution "DIRECTION: LONG\nTP: 0\nSL: 0".data 1 (2/10000)).1
    (by decide)
    (by
      have h : (parsedTech "DIRECTION: LONG\nTP: 0\nSL: 0".data).1.tp = ratOfParts 0 0 0 :=
        rfl
      rw [h]
      norm_num [ratOfParts])
    (by decide)

/-! ## main.py: the decision logic of `on_candle` -/

def ACCOUNT_BALANCE : ℚ := 1000

def MAX_RISK_PERCENT : ℚ := 2/10

def LEVERAGE : ℤ := 10

/-- The sentiment oracle's parsed response
(`GrokClient.analyze_with_sentiment`). -/
structure SentimentResult where
  take_trade : Bool
  sentiment : List Char
  buzz_score : ℤ
  btc_status : List Char
  whale_alert : Bool
  reason : List Char
deriving Repr, DecidableEq

/-- Instrumented outcome of one `on_candle` decision segment: how many times
the sentiment oracle was invoked, which alert (if any) was emitted, how many
times `calculate_position_size` was invoked (and its value), and the daily
x-search counter afterwards. -/
structure CycleOutcome where
  sentiment_calls : ℕ
  alert_high : Bool
  alert_borderline : Bool
  size_computations : ℕ
  position_size : Option ℚ
  daily_x_searches : ℕ
deriving Repr, DecidableEq

/-- The decision logic of `PepeScalpingBot.on_candle` after the technical
oracle's result is in hand (source order): confidence < 60 → SKIP;
otherwise the position size is computed (once, unconditionally);
confidence ≥ 80 → high-confidence alert; otherwise, if the daily x-search
budget is exhausted → SKIP without a call, else charge the counter, invoke
the sentiment oracle once, and alert only if it says `take_trade`. -/
def on_candle_decision (result : TechResult) (current_price : ℚ)
    (daily_x_searches : ℕ) (x_result : SentimentResult) : CycleOutcome :=
  if result.confidence < MIN_CONFIDENCE then
    { sentiment_calls := 0, alert_high := false, alert_borderline := false,
      size_computations := 0, position_size := none,
      daily_x_searches := daily_x_searches }
  else
    let position_size := calculate_position_size ACCOUNT_BALANCE MAX_RISK_PERCENT
      current_price result.sl LEVERAGE
    if HIGH_CONFIDENCE ≤ result.confidence then
      { sentiment_calls := 0, alert_high := true, alert_borderline := false,
        size_computations := 1, position_size := position_size,
        daily_x_searches := daily_x_searches }
    else if MAX_X_SEARCHES_PER_DAY ≤ daily_x_searches then
      { sentiment_calls := 0, alert_high := false, alert_borderline := false,
        size_computations := 1, position_size := position_size,
        daily_x_searches := daily_x_searches }
    else if x_result.take_trade then
      { sentiment_calls := 1, alert_high := false, alert_borderline := true,
        size_computations := 1, position_size := position_size,
        daily_x_searches := daily_x_searches + 1 }
    else
      { sentiment_calls := 1, alert_high := false, alert_borderline := false,
        size_computations := 1, position_size := position_size,
        daily_x_searches := daily_x_searches + 1 }

/-! ## Theorems: confidence gate (C2) -/

/-- Counterexample for claim C2: confidence 65, fresh x-search budget,
sentiment says `take_trade = false` — the sentiment oracle is invoked exactly
once and no alert is emitted, but a position size *is* computed
(`size_computations = 1`, before the sentiment call), contradicting the
claim's "no position size is computed in that cycle". -/
theorem on_candle_borderline_size_computed :
    (on_candle_decision ⟨"LONG".data, 65, 2, 1, "ok".data⟩ 2 0
        ⟨false, "NEUTRAL".data, 0, "FLAT".data, false, "no".data⟩).sentiment_calls = 1
    ∧ (on_candle_decision ⟨"LONG".data, 65, 2, 1, "ok".data⟩ 2 0
        ⟨false, "NEUTRAL".data, 0, "FLAT".data, false, "no".data⟩).alert_high = false
    ∧ (on_candle_decision ⟨"LONG".data, 65, 2, 1, "ok".data⟩ 2 0
        ⟨false, "NEUTRAL".data, 0, "FLAT".data, false, "no".data⟩).alert_borderline = false
    ∧ (on_candle_decision ⟨"LONG".data, 65, 2, 1, "ok".data⟩ 2 0
        ⟨false, "NEUTRAL".data, 0, "FLAT".data, false, "no".data⟩).size_computations = 1 := by
  refine ⟨?_, ?_, ?_, ?_⟩ <;> decide

/-- Claim C2 as amended: in the borderline band `[60, 80)` with x-search
budget available, the sentiment oracle is invoked exactly once and the budget
counter is charged; if it answers `take_trade = false`, no alert of either
kind is emitted — but a position size is computed exactly once (before the
sentiment call), not zero times. -/
theorem on_candle_borderline_spec (result : TechResult) (current_price : ℚ)
    (daily_x_searches : ℕ) (x_result : SentimentResult)
    (hlo : MIN_CONFIDENCE ≤ result.confidence)
    (hhi : result.confidence < HIGH_CONFIDENCE)
    (hbudget : daily_x_searches < MAX_X_SEARCHES_PER_DAY) :
    (on_candle_decision result current_price daily_x_searches x_result).sentiment_calls = 1
    ∧ (on_candle_decision result current_price daily_x_searches x_result).daily_x_searches
        = daily_x_searches + 1
    ∧ (x_result.take_trade = false →
        (on_candle_decision result current_price daily_x_searches x_result).alert_high = false
        ∧ (on_candle_decision result current_price daily_x_searches x_result).alert_borderline
            = false
        ∧ (on_candle_decision result current_price daily_x_searches x_result).size_computations
            = 1) := by
  unfold on_candle_decision
  rw [if_neg (not_lt.mpr hlo), if_neg (not_le.mpr hhi), if_neg (not_le.mpr hbudget)]
  by_cases ht : x_result.take_trade
  · rw [if_pos ht]
    refine ⟨rfl, rfl, ?_⟩
    intro hf
    rw [hf] at ht
    cases ht
  · rw [if_neg ht]
    exact ⟨rfl, rfl, fun _ => ⟨rfl, rfl, rfl⟩⟩

/-- Witness for the amended C2: confidence 65, budget counter at 7, sentiment
rejects — one sentiment call, counter 7 → 8, no alert, one size computation. -/
theorem on_candle_borderline_spec_witness :
    (on_candle_decision ⟨"LONG".data, 65, 2, 1, "ok".data⟩ 2 7
        ⟨false, "NEUTRAL".data, 0, "FLAT".data, false, "no".data⟩).sentiment_calls = 1
    ∧ (on_candle_decision ⟨"LONG".data, 65, 2, 1, "ok".data⟩ 2 7
        ⟨false, "NEUTRAL".data, 0, "FLAT".data, false, "no".data⟩).daily_x_searches = 7 + 1
    ∧ ((⟨false, "NEUTRAL".data, 0, "FLAT".data, false, "no".data⟩ : SentimentResult).take_trade
          = false →
        (on_candle_decision ⟨"LONG".data, 65, 2, 1, "ok".data⟩ 2 7
            ⟨false, "NEUTRAL".data, 0, "FLAT".data, false, "no".data⟩).alert_high = false
        ∧ (on_candle_decision ⟨"LONG".data, 65, 2, 1, "ok".data⟩ 2 7
            ⟨false, "NEUTRAL".data, 0, "FLAT".data, false, "no".data⟩).alert_borderline = false
        ∧ (on_candle_decision ⟨"LONG".data, 65, 2, 1, "ok".data⟩ 2 7
            ⟨false, "NEUTRAL".data, 0, "FLAT".data, false, "no".data⟩).size_computations = 1) :=
  on_candle_borderline_spec ⟨"LONG".data, 65, 2, 1, "ok".data⟩ 2 7
    ⟨false, "NEUTRAL".data, 0, "FLAT".data, false, "no".data⟩
    (by decide) (by decide) (by decide)

end Pepebot
